import Mathlib

/-!
Shallow embedding of the XGBoost fast-model-eval library (Odin engine plus the
Python producer script `xgboost_example.py`).

The repository ships only the Python producer script; the Odin engine itself
(dump parser, tree builder, model, prediction engine) is specified in the
design document but its source is not in the repository, so those components
are modelled from the spec (each such definition is marked `Modelled from the
spec:` in its doc comment).  The producer script's dump-string assembly is
embedded directly from `src/xgboost_example.py`.

Numeric values (`f64` in the spec) are modelled as exact fractions
(integer numerator over natural denominator, not necessarily reduced):
every numeric literal appearing in the claims is exactly representable, and
the spec itself treats floating-point rounding as a tolerance band rather
than prescribed behaviour.
-/

namespace Xme

/-- Modelled from the spec: an `f64` value, represented as an exact fraction
`n / d` (not necessarily in lowest terms) so that all arithmetic is exact and
computable.  `d` is kept positive by every operation defined below. -/
structure F64 where
  n : Int
  d : Nat
  deriving DecidableEq, Repr

/-- Embedding of an integer literal as an `F64`. -/
def F64.ofInt (i : Int) : F64 := ⟨i, 1⟩

/-- Exact addition of two `F64` fractions. -/
def F64.add (a b : F64) : F64 := ⟨a.n * b.d + b.n * a.d, a.d * b.d⟩

/-- The strict `<` comparison used by the split rule (cross-multiplied). -/
def F64.blt (a b : F64) : Bool := a.n * b.d < b.n * a.d

/-- Numeric equality of two fractions (cross-multiplied). -/
def F64.beq (a b : F64) : Bool := a.n * b.d = b.n * a.d

/-- The rational value denoted by an `F64` fraction. -/
def F64.toRat (a : F64) : Rat := (a.n : Rat) / (a.d : Rat)

theorem F64.beq_iff_toRat (a b : F64) (ha : 0 < a.d) (hb : 0 < b.d) :
    F64.beq a b = true ↔ a.toRat = b.toRat := by
  have ha' : ((a.d : Rat)) ≠ 0 := by positivity
  have hb' : ((b.d : Rat)) ≠ 0 := by positivity
  rw [F64.beq, F64.toRat, F64.toRat, div_eq_div_iff ha' hb', decide_eq_true_eq]
  constructor
  · intro h
    exact_mod_cast congrArg (fun z : Int => (z : Rat)) h
  · intro h
    exact_mod_cast h

theorem F64.blt_iff_toRat (a b : F64) (ha : 0 < a.d) (hb : 0 < b.d) :
    F64.blt a b = true ↔ a.toRat < b.toRat := by
  have ha' : (0 : Rat) < (a.d : Rat) := by positivity
  have hb' : (0 : Rat) < (b.d : Rat) := by positivity
  rw [F64.blt, F64.toRat, F64.toRat, div_lt_div_iff₀ ha' hb', decide_eq_true_eq]
  constructor
  · intro h
    exact_mod_cast h
  · intro h
    exact_mod_cast h

/-- Modelled from the spec: a feature-vector entry is an `f64` value or the
explicit missing-value sentinel (`none`). -/
abbrev FeatureVector := List (Option F64)

/-- Modelled from the spec: the parser's per-node record (§3 RawNode):
tree index, original node id, leaf flag, split feature, threshold, child ids
(by original dump id), and leaf value.  Non-leaf fields of leaves (and
vice versa) are filled with inert defaults, as the spec marks them
"valid only if (not) leaf". -/
structure RawNode where
  tree_index : Nat
  node_id : Nat
  is_leaf : Bool
  feature_index : Nat
  threshold : F64
  yes_child : Nat
  no_child : Nat
  missing_child : Nat
  leaf_value : F64
  deriving DecidableEq, Repr

/-- Modelled from the spec: a built node (§3 Node) — same fields as `RawNode`
minus the original ids, with child references rewritten to positions in the
tree's node array. -/
structure Node where
  is_leaf : Bool
  feature_index : Nat
  threshold : F64
  yes_child : Nat
  no_child : Nat
  missing_child : Nat
  leaf_value : F64
  deriving DecidableEq, Repr

/-- Modelled from the spec: a built tree — a position-indexed node array whose
position 0 is the root. -/
structure Tree where
  nodes : List Node
  deriving DecidableEq, Repr

/-- Modelled from the spec: the ensemble — ordered trees, base score and
feature count. -/
structure Model where
  trees : List Tree
  base_score : F64
  num_features : Nat
  deriving DecidableEq, Repr

/-- Modelled from the spec: `ParseError{line_number, reason}` (§4.1). -/
structure ParseError where
  line_number : Nat
  reason : String
  deriving DecidableEq, Repr

/-- Modelled from the spec: the Tree Builder's error kinds (§4.2). -/
inductive BuildError where
  | MissingRoot
  | DanglingReference
  | Cycle
  | Unreachable
  | DuplicateReachability
  deriving DecidableEq, Repr

/-- Modelled from the spec: a load-time error is a `ParseError` or a
`BuildError` (§7). -/
inductive LoadError where
  | parseErr (e : ParseError)
  | buildErr (e : BuildError)
  deriving DecidableEq, Repr

/-- Modelled from the spec: predict-time errors (§7). -/
inductive PredictError where
  | FeatureIndexOutOfRange
  deriving DecidableEq, Repr

instance {ε α : Type} [DecidableEq ε] [DecidableEq α] : DecidableEq (Except ε α) :=
  fun x y =>
    match x, y with
    | .error a, .error b =>
      if h : a = b then .isTrue (by rw [h]) else .isFalse (fun hc => h (Except.error.inj hc))
    | .ok a, .ok b =>
      if h : a = b then .isTrue (by rw [h]) else .isFalse (fun hc => h (Except.ok.inj hc))
    | .error _, .ok _ => .isFalse (fun hc => Except.noConfusion hc)
    | .ok _, .error _ => .isFalse (fun hc => Except.noConfusion hc)

/-- Numeric value of a digit string. -/
def natOfDigits (ds : List Char) : Nat :=
  ds.foldl (fun a c => a * 10 + (c.toNat - 48)) 0

/-- Reads a decimal natural number from the front of the input; fails on an
empty digit run. -/
def parseNatNum (cs : List Char) : Option (Nat × List Char) :=
  let p := cs.span Char.isDigit
  if p.1.isEmpty then none else some (natOfDigits p.1, p.2)

/-- Reads an optionally signed decimal number with optional fraction part and
optional exponent (the numeric forms the producing tool emits), as an exact
`F64` fraction. -/
def parseNumber (cs : List Char) : Option (F64 × List Char) :=
  let signed : Bool × List Char :=
    match cs with
    | '-' :: rest => (true, rest)
    | _ => (false, cs)
  let ip := signed.2.span Char.isDigit
  if ip.1.isEmpty then none
  else
    let fp : List Char × List Char :=
      match ip.2 with
      | '.' :: rest => rest.span Char.isDigit
      | _ => ([], ip.2)
    let ep : Int × List Char :=
      match fp.2 with
      | 'e' :: '-' :: rest =>
          match parseNatNum rest with
          | some (e, rest') => (-(e : Int), rest')
          | none => (0, fp.2)
      | 'e' :: '+' :: rest =>
          match parseNatNum rest with
          | some (e, rest') => ((e : Int), rest')
          | none => (0, fp.2)
      | 'e' :: rest =>
          match parseNatNum rest with
          | some (e, rest') => ((e : Int), rest')
          | none => (0, fp.2)
      | _ => (0, fp.2)
    let mant : Nat := natOfDigits ip.1 * 10 ^ fp.1.length + natOfDigits fp.1
    let num : Int := if signed.1 then -(mant : Int) else (mant : Int)
    if 0 ≤ ep.1 then
      some (⟨num * 10 ^ ep.1.toNat, 10 ^ fp.1.length⟩, ep.2)
    else
      some (⟨num, 10 ^ fp.1.length * 10 ^ (-ep.1).toNat⟩, ep.2)

/-- Drops a literal text from the front of the input, or fails. -/
def stripPre : List Char → List Char → Option (List Char)
  | [], cs => some cs
  | _ :: _, [] => none
  | p :: ps, c :: cs => if c = p then stripPre ps cs else none

/-- Splits a character stream at newline characters. -/
def splitOnNl : List Char → List (List Char)
  | [] => [[]]
  | '\n' :: rest => [] :: splitOnNl rest
  | c :: rest =>
    match splitOnNl rest with
    | [] => [[c]]
    | l :: ls => (c :: l) :: ls

/-- True for the advisory indentation characters (§4.1: indentation is
advisory only and is skipped). -/
def isIndentChar (c : Char) : Bool := c = '\t' || c = ' '

/-- The 1-based, non-blank lines of the dump text. -/
def numberedLines (text : String) : List (Nat × List Char) :=
  ((splitOnNl text.data).enum.map (fun p => (p.1 + 1, p.2))).filter
    (fun p => !(p.2.dropWhile isIndentChar).isEmpty)

/-- Modelled from the spec: parses one dump line (§4.1 grammar), which is
either `<indent><id>:[f<feature_index><<threshold>] yes=<id>,no=<id>,missing=<id>`
or `<indent><id>:leaf=<value>`; any other shape is a `ParseError` carrying the
line number and a reason.  `tre` is the 1-based index of the tree the line
belongs to. -/
def parseLine (tre : Nat) (ln : Nat) (cs0 : List Char) : Except ParseError RawNode :=
  let cs := cs0.dropWhile isIndentChar
  match parseNatNum cs with
  | none => .error ⟨ln, "expected node id"⟩
  | some (id, cs) =>
    match cs with
    | ':' :: cs =>
      match stripPre "leaf=".data cs with
      | some cs =>
        match parseNumber cs with
        | none => .error ⟨ln, "expected leaf value"⟩
        | some (v, _) => .ok ⟨tre, id, true, 0, F64.ofInt 0, 0, 0, 0, v⟩
      | none =>
        match cs with
        | '[' :: 'f' :: cs =>
          match parseNatNum cs with
          | none => .error ⟨ln, "expected feature index"⟩
          | some (fi, cs) =>
            match cs with
            | '<' :: cs =>
              match parseNumber cs with
              | none => .error ⟨ln, "non-numeric threshold"⟩
              | some (thr, cs) =>
                match stripPre "] yes=".data cs with
                | none => .error ⟨ln, "expected yes child"⟩
                | some cs =>
                  match parseNatNum cs with
                  | none => .error ⟨ln, "expected yes child id"⟩
                  | some (yi, cs) =>
                    match stripPre ",no=".data cs with
                    | none => .error ⟨ln, "expected no child"⟩
                    | some cs =>
                      match parseNatNum cs with
                      | none => .error ⟨ln, "expected no child id"⟩
                      | some (ni, cs) =>
                        match stripPre ",missing=".data cs with
                        | none => .error ⟨ln, "expected missing child"⟩
                        | some cs =>
                          match parseNatNum cs with
                          | none => .error ⟨ln, "expected missing child id"⟩
                          | some (mi, _) =>
                            .ok ⟨tre, id, false, fi, thr, yi, ni, mi, F64.ofInt 0⟩
            | _ => .error ⟨ln, "unsupported comparison operator"⟩
        | _ => .error ⟨ln, "malformed line"⟩
    | _ => .error ⟨ln, "expected colon after node id"⟩

/-- Modelled from the spec: parses all dump lines in order into `RawNode`
records, failing with the first `ParseError` (§4.1, fail-fast).  A new tree
begins whenever a line's id is 0 (§4.1); `cur` is the index of the current
tree. -/
def parseLines : List (Nat × List Char) → Nat → Except ParseError (List RawNode)
  | [], _ => .ok []
  | (ln, cs) :: rest, cur =>
    match parseLine 0 ln cs with
    | .error e => .error e
    | .ok r =>
      let cur' := if r.node_id = 0 then cur + 1 else cur
      match parseLines rest cur' with
      | .error e => .error e
      | .ok rs => .ok ({ r with tree_index := cur' } :: rs)

/-- Modelled from the spec: `parse(text) -> sequence<RawNode> | ParseError`
(§4.1). -/
def parse (text : String) : Except ParseError (List RawNode) :=
  parseLines (numberedLines text) 0

/-- Helper for `splitTrees`: accumulates the current tree block (reversed). -/
def splitTreesAux : List RawNode → List RawNode → List (List RawNode)
  | [], acc => [acc.reverse]
  | r :: rest, acc =>
    if r.node_id = 0 then acc.reverse :: splitTreesAux rest [r]
    else splitTreesAux rest (r :: acc)

/-- Modelled from the spec: splits the parsed node sequence into per-tree
blocks — a new tree begins at every node whose original id is 0 (§4.1,
§4.3). -/
def splitTrees (rs : List RawNode) : List (List RawNode) :=
  match rs with
  | [] => []
  | r :: rest => splitTreesAux rest [r]

/-- Modelled from the spec: the position assigned to an original dump id —
the first index at which that id occurs in the (root-first) node list
(§4.2: positions assigned in one pass in dump-emitted order). -/
def idToPos (raws : List RawNode) (id : Nat) : Option Nat :=
  raws.findIdx? (fun r => r.node_id == id)

/-- Modelled from the spec: rewrites one node's child references from
original ids to positions, failing with `BuildError.DanglingReference` when a
child id has no corresponding node (§4.2). -/
def rewriteNode (raws : List RawNode) (r : RawNode) : Except BuildError Node :=
  if r.is_leaf then .ok ⟨true, 0, F64.ofInt 0, 0, 0, 0, r.leaf_value⟩
  else
    match idToPos raws r.yes_child, idToPos raws r.no_child,
          idToPos raws r.missing_child with
    | some y, some no, some mi =>
        .ok ⟨false, r.feature_index, r.threshold, y, no, mi, F64.ofInt 0⟩
    | _, _, _ => .error .DanglingReference

/-- Rewrites every node of one tree, failing on the first dangling child
reference. -/
def rewriteAll (raws : List RawNode) : List RawNode → Except BuildError (List Node)
  | [] => .ok []
  | r :: rest =>
    match rewriteNode raws r with
    | .error e => .error e
    | .ok nd =>
      match rewriteAll raws rest with
      | .error e => .error e
      | .ok nds => .ok (nd :: nds)

/-- Modelled from the spec: the visited-set walk from the root (§4.2) —
depth-first over child positions (`yes`, `no`, and `missing` when it does not
alias one of them, §3), failing with `BuildError.Cycle` on a back-edge to an
ancestor (a position on the current path) and with
`BuildError.DuplicateReachability` on a position reached twice along
different paths.  Returns the set (as a list) of visited positions. -/
def walkCheck (nodes : List Node) :
    Nat → Nat → List Nat → List Nat → Except BuildError (List Nat)
  | 0, _, _, _ => .error .Cycle
  | fuel + 1, pos, path, visited =>
    if pos ∈ path then .error .Cycle
    else if pos ∈ visited then .error .DuplicateReachability
    else
      match nodes[pos]? with
      | none => .error .DanglingReference
      | some nd =>
        if nd.is_leaf then .ok (pos :: visited)
        else
          match walkCheck nodes fuel nd.yes_child (pos :: path) (pos :: visited) with
          | .error e => .error e
          | .ok v1 =>
            match walkCheck nodes fuel nd.no_child (pos :: path) v1 with
            | .error e => .error e
            | .ok v2 =>
              if nd.missing_child = nd.yes_child ∨ nd.missing_child = nd.no_child
              then .ok v2
              else walkCheck nodes fuel nd.missing_child (pos :: path) v2

/-- Modelled from the spec: `build(raw_nodes_for_one_tree) -> Tree | BuildError`
(§4.2): fails with `MissingRoot` when no node has original id 0; otherwise
assigns positions in dump-emitted order with the root first, rewrites child
ids to positions (failing with `DanglingReference` on unknown ids), and
validates by the visited-set walk from the root that every node is reached
exactly once (`Cycle` / `DuplicateReachability` / `Unreachable`). -/
def build (raws : List RawNode) : Except BuildError Tree :=
  match raws.findIdx? (fun r => r.node_id == 0) with
  | none => .error .MissingRoot
  | some i =>
    match raws[i]? with
    | none => .error .MissingRoot
    | some root =>
      match rewriteAll (root :: raws.eraseIdx i) (root :: raws.eraseIdx i) with
      | .error e => .error e
      | .ok nodes =>
        match walkCheck nodes (nodes.length + 1) 0 [] [] with
        | .error e => .error e
        | .ok visited =>
          if visited.length = nodes.length then .ok ⟨nodes⟩
          else .error .Unreachable

/-- Builds every tree block in order, failing with the first `BuildError`
encountered in tree order (§4.3, fail-fast). -/
def buildAll : List (List RawNode) → Except BuildError (List Tree)
  | [] => .ok []
  | raws :: rest =>
    match build raws with
    | .error e => .error e
    | .ok t =>
      match buildAll rest with
      | .error e => .error e
      | .ok ts => .ok (t :: ts)

/-- The model's feature count: one past the largest split feature index
referenced by any tree (§3). -/
def numFeatures (trees : List Tree) : Nat :=
  trees.foldl
    (fun acc t =>
      t.nodes.foldl
        (fun acc nd => if nd.is_leaf then acc else max acc (nd.feature_index + 1))
        acc)
    0

/-- Modelled from the spec: the Load Facade,
`load_model_from_txt(text, base_score) -> Model | Error` (§4.3) — parses the
dump text, splits it into per-tree blocks, builds every tree, and returns the
Model, failing with the first `ParseError`/`BuildError` and producing no
(partial) Model on failure. -/
def load_model_from_txt (text : String) (base_score : F64) :
    Except LoadError Model :=
  match parse text with
  | .error e => .error (.parseErr e)
  | .ok raws =>
    match buildAll (splitTrees raws) with
    | .error e => .error (.buildErr e)
    | .ok trees => .ok ⟨trees, base_score, numFeatures trees⟩

/-- Modelled from the spec: one tree traversal (§4.4) — from position `pos`,
while the current node is not a leaf: route to `missing_child` when the
examined feature is the missing sentinel, to `yes_child` when its value is
strictly below the threshold, to `no_child` otherwise; fail with
`PredictError.FeatureIndexOutOfRange` when the node's feature index is not
within the feature vector.  `fuel` bounds the number of steps (`none` means
the bound was exhausted; the build-time acyclicity check rules this out for
built trees). -/
def traverse (nodes : List Node) (features : FeatureVector) :
    Nat → Nat → Option (Except PredictError F64)
  | 0, _ => none
  | fuel + 1, pos =>
    match nodes[pos]? with
    | none => none
    | some nd =>
      if nd.is_leaf then some (.ok nd.leaf_value)
      else
        match features[nd.feature_index]? with
        | none => some (.error .FeatureIndexOutOfRange)
        | some none => traverse nodes features fuel nd.missing_child
        | some (some v) =>
          if F64.blt v nd.threshold then traverse nodes features fuel nd.yes_child
          else traverse nodes features fuel nd.no_child

/-- One tree's contribution: traversal from the root (position 0) with fuel
one more than the node count. -/
def eval_tree (t : Tree) (features : FeatureVector) :
    Option (Except PredictError F64) :=
  traverse t.nodes features (t.nodes.length + 1) 0

/-- Modelled from the spec: folds every tree's leaf contribution into the
accumulator in order (§4.4), propagating the first predict-time error. -/
def predictTrees (features : FeatureVector) :
    List Tree → F64 → Option (Except PredictError F64)
  | [], acc => some (.ok acc)
  | t :: ts, acc =>
    match eval_tree t features with
    | none => none
    | some (.error e) => some (.error e)
    | some (.ok v) => predictTrees features ts (F64.add acc v)

/-- Modelled from the spec: `predict(model, features) -> f64 | PredictError`
(§4.4) — accumulator starts at `base_score`, every tree's leaf value is added,
and the accumulated sum is returned. -/
def xgb_predict (m : Model) (features : FeatureVector) :
    Option (Except PredictError F64) :=
  predictTrees features m.trees m.base_score

/-- Embedded from `src/xgboost_example.py`: the accumulation loop
`for index, tree_str in enumerate(model_dump): model_dump_as_string.append(tree_str)`.
The tree-boundary marker line (`append("#" + str(index) + "\n")`) is commented
out in the source, so only the per-tree dump strings are appended, in
enumeration order. -/
def model_dump_parts (model_dump : List String) : List String :=
  model_dump.enum.foldl (fun acc p => acc ++ [p.2]) []

/-- Embedded from `src/xgboost_example.py`:
`model_dump_as_string = "".join(model_dump_as_string)` — the exact text the
script then writes to `model_xgboost.txt`. -/
def model_dump_as_string (model_dump : List String) : String :=
  String.join (model_dump_parts model_dump)

/-- The one-tree dump of the spec's first end-to-end scenario (§8). -/
def dump_one_tree : String := "0:[f0<5] yes=1,no=2,missing=1\n1:leaf=10\n2:leaf=-3\n"

/-- A dump whose root references child id 2, which no line defines (§8
malformed-input scenario: dangling child id). -/
def dump_dangling : String := "0:[f0<5] yes=1,no=2,missing=1\n1:leaf=10\n"

/-- A dump in which node id 2 is defined twice (§8 malformed-input scenario:
duplicate node id). -/
def dump_duplicate : String :=
  "0:[f0<5] yes=1,no=2,missing=1\n1:leaf=10\n2:leaf=-3\n2:leaf=7\n"

/-- A dump with no node id 0 (§8 malformed-input scenario: missing root). -/
def dump_no_root : String := "1:leaf=10\n"

/-- A two-tree dump whose first tree has a dangling child id and whose second
tree has a duplicate node id: fail-fast loading must report the first tree's
error. -/
def dump_errors_in_trees_1_2 : String :=
  "0:[f0<5] yes=1,no=2,missing=1\n1:leaf=10\n0:[f0<5] yes=1,no=2,missing=1\n1:leaf=10\n2:leaf=-3\n2:leaf=7\n"

/-- The same two malformed trees in the opposite order: now the duplicate-id
tree is first in tree order and its error must be the one reported. -/
def dump_errors_in_trees_2_1 : String :=
  "0:[f0<5] yes=1,no=2,missing=1\n1:leaf=10\n2:leaf=-3\n2:leaf=7\n0:[f0<5] yes=1,no=2,missing=1\n1:leaf=10\n"

/-- The raw nodes of `dump_dangling` as the parser emits them: the split node
references child id 2, which has no node. -/
def badBlockDangling : List RawNode :=
  [⟨1, 0, false, 0, ⟨5, 1⟩, 1, 2, 1, F64.ofInt 0⟩,
   ⟨1, 1, true, 0, F64.ofInt 0, 0, 0, 0, F64.ofInt 10⟩]

/-- Scenario harness: loads `txt` with base score `base`, predicts on `fv`,
and checks that prediction succeeds with a value numerically equal to
`target`. -/
def predCheck (txt : String) (base : F64) (fv : FeatureVector) (target : F64) : Bool :=
  match load_model_from_txt txt base with
  | .error _ => false
  | .ok m =>
    match xgb_predict m fv with
    | some (.ok r) => F64.beq r target
    | _ => false

theorem foldl_append_snd (l : List (Nat × String)) :
    ∀ acc : List String, l.foldl (fun acc p => acc ++ [p.2]) acc = acc ++ l.map Prod.snd := by
  induction l with
  | nil => intro acc; simp
  | cons p rest ih => intro acc; simp [ih]

theorem join_data (l : List String) :
    ∀ acc : String, (l.foldl (fun r s => r ++ s) acc).data =
      acc.data ++ (l.map String.data).flatten := by
  induction l with
  | nil => intro acc; simp
  | cons s rest ih => intro acc; simp [ih]

/-- Claim C10: the producer script's output text is exactly the
character-for-character concatenation of the booster's per-tree dump strings
in tree-index order, with no tree-boundary markers or separators between
them. -/
theorem producer_output_is_plain_concatenation (model_dump : List String) :
    (model_dump_as_string model_dump).data = (model_dump.map String.data).flatten := by
  have hparts : model_dump_parts model_dump = model_dump := by
    rw [model_dump_parts, foldl_append_snd]
    simp [List.enum_map_snd]
  rw [model_dump_as_string, hparts, String.join, join_data]
  simp

/-- Claim C1: loading the one-tree dump
`0:[f0<5] yes=1,no=2,missing=1` / `1:leaf=10` / `2:leaf=-3` with base score 0
succeeds, and prediction returns 10 on `[4.0]`, -3 on `[5.0]`, and 10 on a
vector whose entry 0 is the missing-value sentinel. -/
theorem one_tree_scenario :
    predCheck dump_one_tree (F64.ofInt 0) [some (F64.ofInt 4)] (F64.ofInt 10) = true ∧
    predCheck dump_one_tree (F64.ofInt 0) [some (F64.ofInt 5)] (F64.ofInt (-3)) = true ∧
    predCheck dump_one_tree (F64.ofInt 0) [none] (F64.ofInt 10) = true := by
  refine ⟨by decide, by decide, by decide⟩

theorem parseLines_first_error (ln : Nat) (cs : List Char) (e : ParseError)
    (hbad : parseLine 0 ln cs = .error e) :
    ∀ (pre : List (Nat × List Char)),
      (∀ p ∈ pre, (parseLine 0 p.1 p.2).isOk = true) →
      ∀ (post : List (Nat × List Char)) (cur : Nat),
        parseLines (pre ++ (ln, cs) :: post) cur = .error e := by
  intro pre
  induction pre with
  | nil =>
    intro _ post cur
    rw [List.nil_append, parseLines, hbad]
  | cons p pre ih =>
    intro hok post cur
    have hp := hok p (by simp)
    cases p with
    | mk pln pcs =>
      cases hpl : parseLine 0 pln pcs with
      | error e' => rw [hpl] at hp; simp [Except.isOk, Except.toBool] at hp
      | ok r =>
        rw [List.cons_append]
        simp only [parseLines, hpl]
        rw [ih (fun q hq => hok q (by simp [hq])) post
          (if r.node_id = 0 then cur + 1 else cur)]

theorem buildAll_first_error (blk : List RawNode) (e : BuildError)
    (hbad : build blk = .error e) :
    ∀ (pre : List (List RawNode)),
      (∀ b ∈ pre, (build b).isOk = true) →
      ∀ (post : List (List RawNode)),
        buildAll (pre ++ blk :: post) = .error e := by
  intro pre
  induction pre with
  | nil =>
    intro _ post
    rw [List.nil_append, buildAll, hbad]
  | cons b pre ih =>
    intro hok post
    have hb := hok b (by simp)
    cases hbb : build b with
    | error e' => rw [hbb] at hb; simp [Except.isOk, Except.toBool] at hb
    | ok t =>
      rw [List.cons_append]
      simp only [buildAll, hbb]
      rw [ih (fun q hq => hok q (by simp [hq])) post]

theorem load_parse_error (text : String) (base : F64) (e : ParseError)
    (hp : parse text = .error e) :
    load_model_from_txt text base = .error (.parseErr e) := by
  simp only [load_model_from_txt, hp]

theorem load_build_error (text : String) (base : F64) (raws : List RawNode)
    (e : BuildError) (hp : parse text = .ok raws)
    (hb : buildAll (splitTrees raws) = .error e) :
    load_model_from_txt text base = .error (.buildErr e) := by
  simp only [load_model_from_txt, hp, hb]

/-- Claim C5: loading is fail-fast and all-or-nothing.  Line parsing returns
the first `ParseError` in line order (later lines never inspected for the
result); tree building returns the first `BuildError` in tree order (trees
after the first failing one never affect the result); either failure aborts
the whole load with that error wrapped in `LoadError`, producing no Model.
Concretely, the dangling-child, duplicate-node-id and missing-root dumps each
fail with a distinct, identifiable error kind, and in a dump with two
malformed trees the first tree's error is the one reported, in either
order. -/
theorem malformed_dumps_rejected :
    (∀ (ln : Nat) (cs : List Char) (e : ParseError)
        (pre post : List (Nat × List Char)) (cur : Nat),
        parseLine 0 ln cs = .error e →
        (∀ p ∈ pre, (parseLine 0 p.1 p.2).isOk = true) →
        parseLines (pre ++ (ln, cs) :: post) cur = .error e) ∧
    (∀ (blk : List RawNode) (e : BuildError)
        (pre post : List (List RawNode)),
        build blk = .error e →
        (∀ b ∈ pre, (build b).isOk = true) →
        buildAll (pre ++ blk :: post) = .error e) ∧
    (∀ (text : String) (base : F64) (e : ParseError),
        parse text = .error e →
        load_model_from_txt text base = .error (.parseErr e)) ∧
    (∀ (text : String) (base : F64) (raws : List RawNode) (e : BuildError),
        parse text = .ok raws →
        buildAll (splitTrees raws) = .error e →
        load_model_from_txt text base = .error (.buildErr e)) ∧
    load_model_from_txt dump_dangling (F64.ofInt 0) =
      .error (.buildErr .DanglingReference) ∧
    load_model_from_txt dump_duplicate (F64.ofInt 0) =
      .error (.buildErr .Unreachable) ∧
    load_model_from_txt dump_no_root (F64.ofInt 0) =
      .error (.buildErr .MissingRoot) ∧
    (BuildError.DanglingReference ≠ BuildError.Unreachable ∧
     BuildError.DanglingReference ≠ BuildError.MissingRoot ∧
     BuildError.Unreachable ≠ BuildError.MissingRoot) ∧
    load_model_from_txt dump_errors_in_trees_1_2 (F64.ofInt 0) =
      .error (.buildErr .DanglingReference) ∧
    load_model_from_txt dump_errors_in_trees_2_1 (F64.ofInt 0) =
      .error (.buildErr .Unreachable) := by
  refine ⟨?_, ?_, ?_, ?_, by decide, by decide, by decide, by decide,
    by decide, by decide⟩
  · intro ln cs e pre post cur hbad hok
    exact parseLines_first_error ln cs e hbad pre hok post cur
  · intro blk e pre post hbad hok
    exact buildAll_first_error blk e hbad pre hok post
  · intro text base e hp
    exact load_parse_error text base e hp
  · intro text base raws e hp hb
    exact load_build_error text base raws e hp hb

/-- Claim C8: `xgb_predict` is a pure function of the model and the feature
vector, so two calls with identical inputs return identical results. -/
theorem predict_deterministic (m : Model) (features : FeatureVector)
    (r₁ r₂ : Option (Except PredictError F64))
    (h₁ : xgb_predict m features = r₁) (h₂ : xgb_predict m features = r₂) :
    r₁ = r₂ := h₁ ▸ h₂ ▸ rfl

theorem predict_deterministic_witness :
    (some (Except.ok (F64.ofInt 0)) : Option (Except PredictError F64)) =
      some (Except.ok (F64.ofInt 0)) :=
  predict_deterministic ⟨[], F64.ofInt 0, 0⟩ []
    (some (Except.ok (F64.ofInt 0))) (some (Except.ok (F64.ofInt 0))) rfl rfl

theorem F64.add_zero_right (a : F64) : F64.add a (F64.ofInt 0) = a := by
  cases a with
  | mk n d => simp [F64.add, F64.ofInt]

theorem F64.add_assoc (a b c : F64) :
    F64.add (F64.add a b) c = F64.add a (F64.add b c) := by
  cases a with
  | mk an ad =>
    cases b with
    | mk bn bd =>
      cases c with
      | mk cn cd =>
        simp [F64.add]
        constructor
        · ring
        · ring

/-- The spec's "sum, over every tree, of the reached leaf value" (§4.4), as a
function of a per-tree leaf-value assignment. -/
def sumLeaves (L : Tree → F64) : List Tree → F64
  | [] => F64.ofInt 0
  | t :: ts => F64.add (L t) (sumLeaves L ts)

theorem predictTrees_sum (features : FeatureVector) (L : Tree → F64) :
    ∀ (ts : List Tree) (acc : F64),
      (∀ t ∈ ts, eval_tree t features = some (.ok (L t))) →
      predictTrees features ts acc = some (.ok (F64.add acc (sumLeaves L ts))) := by
  intro ts
  induction ts with
  | nil => intro acc _; simp [predictTrees, sumLeaves, F64.add_zero_right]
  | cons t ts ih =>
    intro acc h
    have ht := h t (by simp)
    rw [predictTrees, ht]
    show predictTrees features ts (F64.add acc (L t)) = _
    rw [ih _ (fun t' ht' => h t' (by simp [ht']))]
    rw [sumLeaves, F64.add_assoc]

/-- Claim C2: prediction is the base score plus the sum, over every tree, of
the leaf value reached by the §4.4 traversal (missing → `missing_child`,
`value < threshold` → `yes_child`, otherwise `no_child`), here provided as a
per-tree assignment `L` that the traversal is assumed to reach. -/
theorem predict_is_base_plus_sum (m : Model) (features : FeatureVector)
    (L : Tree → F64)
    (h : ∀ t ∈ m.trees, eval_tree t features = some (.ok (L t))) :
    xgb_predict m features =
      some (.ok (F64.add m.base_score (sumLeaves L m.trees))) := by
  rw [xgb_predict]
  exact predictTrees_sum features L m.trees m.base_score h

/-- A concrete split node: feature 0, threshold 5, yes=1, no=2, missing=1. -/
def exRoot : Node := ⟨false, 0, ⟨5, 1⟩, 1, 2, 1, F64.ofInt 0⟩

/-- A concrete leaf with value 10. -/
def exLeafA : Node := ⟨true, 0, F64.ofInt 0, 0, 0, 0, F64.ofInt 10⟩

/-- A concrete leaf with value -3. -/
def exLeafB : Node := ⟨true, 0, F64.ofInt 0, 0, 0, 0, ⟨-3, 1⟩⟩

/-- The node array of the spec's one-tree scenario, in built form. -/
def exNodes : List Node := [exRoot, exLeafA, exLeafB]

/-- The built tree of the spec's one-tree scenario. -/
def exTree : Tree := ⟨exNodes⟩

/-- A single-leaf tree contributing 2. -/
def exTreeC : Tree := ⟨[⟨true, 0, F64.ofInt 0, 0, 0, 0, F64.ofInt 2⟩]⟩

/-- A single-leaf tree contributing -0.5. -/
def exTreeD : Tree := ⟨[⟨true, 0, F64.ofInt 0, 0, 0, 0, ⟨-1, 2⟩⟩]⟩

/-- The spec's two-tree scenario: contributions 2.0 and -0.5, base score 1.0. -/
def twoTreeModel : Model := ⟨[exTreeC, exTreeD], F64.ofInt 1, 0⟩

/-- The leaf value reached in each tree of `twoTreeModel` (both are
single-leaf trees). -/
def exL (t : Tree) : F64 :=
  match t.nodes with
  | nd :: _ => nd.leaf_value
  | [] => F64.ofInt 0

theorem predict_is_base_plus_sum_witness :
    xgb_predict twoTreeModel [] =
      some (.ok (F64.add twoTreeModel.base_score (sumLeaves exL twoTreeModel.trees))) ∧
    F64.beq (F64.add twoTreeModel.base_score (sumLeaves exL twoTreeModel.trees))
      ⟨5, 2⟩ = true :=
  ⟨predict_is_base_plus_sum twoTreeModel [] exL (by decide), by decide⟩

/-- Claim C3: when the examined feature is present and numerically equal to
the node's threshold, the strict `<` comparison fails and traversal moves to
the no-child. -/
theorem equal_threshold_routes_to_no_child (nodes : List Node)
    (features : FeatureVector) (fuel pos : Nat) (nd : Node) (v : F64)
    (hnd : nodes[pos]? = some nd) (hleaf : nd.is_leaf = false)
    (hv : features[nd.feature_index]? = some (some v))
    (heq : F64.beq v nd.threshold = true) :
    traverse nodes features (fuel + 1) pos =
      traverse nodes features fuel nd.no_child := by
  have hlt : F64.blt v nd.threshold = false := by
    rw [F64.beq, decide_eq_true_eq] at heq
    rw [F64.blt, heq]
    simp
  simp [traverse, hnd, hleaf, hv, hlt]

theorem equal_threshold_routes_to_no_child_witness :
    traverse exNodes [some ⟨5, 1⟩] 4 0 = traverse exNodes [some ⟨5, 1⟩] 3 2 :=
  equal_threshold_routes_to_no_child exNodes [some ⟨5, 1⟩] 3 0 exRoot ⟨5, 1⟩
    rfl rfl rfl (by decide)

/-- Claim C4: when the examined feature is the missing-value sentinel,
traversal moves to the missing-child, whatever the node's threshold and also
when `missing_child` aliases `yes_child` or `no_child` (the node `nd` is
arbitrary). -/
theorem missing_feature_routes_to_missing_child (nodes : List Node)
    (features : FeatureVector) (fuel pos : Nat) (nd : Node)
    (hnd : nodes[pos]? = some nd) (hleaf : nd.is_leaf = false)
    (hv : features[nd.feature_index]? = some none) :
    traverse nodes features (fuel + 1) pos =
      traverse nodes features fuel nd.missing_child := by
  simp [traverse, hnd, hleaf, hv]

theorem missing_feature_routes_to_missing_child_witness :
    traverse exNodes [none] 4 0 = traverse exNodes [none] 3 1 :=
  missing_feature_routes_to_missing_child exNodes [none] 3 0 exRoot rfl rfl rfl

/-- Claim C6: reaching a split node whose feature index is not within the
feature vector makes the traversal fail with
`PredictError.FeatureIndexOutOfRange` (no truncation or substitution), and
`predictTrees` propagates such a per-tree failure to the whole prediction.
The model itself is never mutated: `xgb_predict` takes it read-only. -/
theorem oob_feature_index_fails :
    (∀ (nodes : List Node) (features : FeatureVector) (fuel pos : Nat)
        (nd : Node), nodes[pos]? = some nd → nd.is_leaf = false →
        features.length ≤ nd.feature_index →
        traverse nodes features (fuel + 1) pos =
          some (.error .FeatureIndexOutOfRange)) ∧
    (∀ (features : FeatureVector) (e : PredictError) (ts : List Tree)
        (acc : F64) (t : Tree), eval_tree t features = some (.error e) →
        predictTrees features (t :: ts) acc = some (.error e)) := by
  constructor
  · intro nodes features fuel pos nd hnd hleaf hoob
    have hf : features[nd.feature_index]? = none := by
      rw [List.getElem?_eq_none_iff]
      exact hoob
    simp [traverse, hnd, hleaf, hf]
  · intro features e ts acc t ht
    rw [predictTrees, ht]

theorem oob_feature_index_fails_witness :
    traverse exNodes [] 1 0 = some (.error .FeatureIndexOutOfRange) ∧
    predictTrees [] [exTree] (F64.ofInt 0) =
      some (.error .FeatureIndexOutOfRange) :=
  ⟨oob_feature_index_fails.1 exNodes [] 0 0 exRoot rfl rfl (by decide),
   oob_feature_index_fails.2 [] .FeatureIndexOutOfRange [] (F64.ofInt 0) exTree
     (by decide)⟩

theorem walk_traverse_total (nodes : List Node) (features : FeatureVector) :
    ∀ (fuel : Nat), ∀ (pos : Nat) (path visited vis : List Nat),
      walkCheck nodes fuel pos path visited = .ok vis →
      ∀ fuel2, fuel ≤ fuel2 →
        ∃ r, traverse nodes features fuel2 pos = some r ∧
          ((∀ nd ∈ nodes, nd.is_leaf = false →
              nd.feature_index < features.length) → ∃ v, r = Except.ok v) := by
  intro fuel
  induction fuel with
  | zero =>
    intro pos path visited vis h
    exact Except.noConfusion h
  | succ fuel ih =>
    intro pos path visited vis h fuel2 hle
    obtain ⟨f2, rfl⟩ : ∃ f2, fuel2 = f2 + 1 := ⟨fuel2 - 1, by omega⟩
    have hle' : fuel ≤ f2 := by omega
    rw [walkCheck] at h
    split at h
    · exact Except.noConfusion h
    split at h
    · exact Except.noConfusion h
    split at h
    · exact Except.noConfusion h
    rename_i nd hnd
    split at h
    · rename_i hleaf
      refine ⟨Except.ok nd.leaf_value, ?_, fun _ => ⟨_, rfl⟩⟩
      simp [traverse, hnd, hleaf]
    · rename_i hleaf
      have hleaf' : nd.is_leaf = false := by simpa using hleaf
      split at h
      · exact Except.noConfusion h
      rename_i v1 hy
      split at h
      · exact Except.noConfusion h
      rename_i v2 hn
      cases hf : features[nd.feature_index]? with
      | none =>
        refine ⟨Except.error .FeatureIndexOutOfRange, ?_, ?_⟩
        · simp [traverse, hnd, hleaf', hf]
        · intro hin
          exfalso
          have hlen := List.getElem?_eq_none_iff.mp hf
          have := hin nd (List.getElem?_mem hnd) hleaf'
          omega
      | some fv =>
        cases fv with
        | none =>
          have hms : ∃ pv vv,
              walkCheck nodes fuel nd.missing_child (pos :: path) pv = .ok vv := by
            by_cases hal : nd.missing_child = nd.yes_child ∨
                nd.missing_child = nd.no_child
            · rcases hal with hal | hal
              · exact ⟨pos :: visited, v1, by rw [hal]; exact hy⟩
              · exact ⟨v1, v2, by rw [hal]; exact hn⟩
            · rw [if_neg hal] at h
              exact ⟨v2, vis, h⟩
          obtain ⟨pv, vv, hms⟩ := hms
          obtain ⟨r, hr, hr2⟩ := ih nd.missing_child (pos :: path) pv vv hms f2 hle'
          refine ⟨r, ?_, hr2⟩
          rw [← hr]
          simp [traverse, hnd, hleaf', hf]
        | some v =>
          cases hblt : F64.blt v nd.threshold with
          | true =>
            obtain ⟨r, hr, hr2⟩ :=
              ih nd.yes_child (pos :: path) (pos :: visited) v1 hy f2 hle'
            refine ⟨r, ?_, hr2⟩
            rw [← hr]
            simp [traverse, hnd, hleaf', hf, hblt]
          | false =>
            obtain ⟨r, hr, hr2⟩ :=
              ih nd.no_child (pos :: path) v1 v2 hn f2 hle'
            refine ⟨r, ?_, hr2⟩
            rw [← hr]
            simp [traverse, hnd, hleaf', hf, hblt]

/-- Claim C7: a tree accepted by the Tree Builder's validation (root walk
reaching every node exactly once, no cycles) has terminating traversal: for
every feature vector the traversal yields a result within the fuel bound, and
when the feature vector covers every referenced feature index (the spec's
well-formedness condition on FeatureVector) it terminates at a leaf. -/
theorem built_tree_traversal_terminates (raws : List RawNode) (t : Tree)
    (hb : build raws = .ok t) (features : FeatureVector) :
    (∃ r, eval_tree t features = some r) ∧
    ((∀ nd ∈ t.nodes, nd.is_leaf = false →
        nd.feature_index < features.length) →
      ∃ v, eval_tree t features = some (Except.ok v)) := by
  rw [build] at hb
  split at hb
  · exact Except.noConfusion hb
  split at hb
  · exact Except.noConfusion hb
  split at hb
  · exact Except.noConfusion hb
  rename_i nodes hrw
  split at hb
  · exact Except.noConfusion hb
  rename_i visited hwalk
  split at hb
  · have ht : t = ⟨nodes⟩ := (Except.ok.inj hb).symm
    subst ht
    obtain ⟨r, hr, hr2⟩ := walk_traverse_total nodes features (nodes.length + 1)
      0 [] [] visited hwalk (nodes.length + 1) le_rfl
    constructor
    · exact ⟨r, hr⟩
    · intro hin
      obtain ⟨v, hv⟩ := hr2 hin
      exact ⟨v, by rw [show eval_tree ⟨nodes⟩ features =
        traverse nodes features (nodes.length + 1) 0 from rfl, hr, hv]⟩
  · exact Except.noConfusion hb

/-- The raw nodes of the one-tree scenario, as the parser would emit them. -/
def exRaws : List RawNode :=
  [⟨1, 0, false, 0, ⟨5, 1⟩, 1, 2, 1, F64.ofInt 0⟩,
   ⟨1, 1, true, 0, F64.ofInt 0, 0, 0, 0, F64.ofInt 10⟩,
   ⟨1, 2, true, 0, F64.ofInt 0, 0, 0, 0, ⟨-3, 1⟩⟩]

theorem malformed_dumps_rejected_witness :
    parseLines [(1, "0:leaf=1".data), (2, "x".data)] 0 =
      .error ⟨2, "expected node id"⟩ ∧
    buildAll [exRaws, badBlockDangling] = .error .DanglingReference ∧
    load_model_from_txt "x\n" (F64.ofInt 0) =
      .error (.parseErr ⟨1, "expected node id"⟩) ∧
    load_model_from_txt dump_dangling (F64.ofInt 0) =
      .error (.buildErr .DanglingReference) :=
  ⟨malformed_dumps_rejected.1 2 "x".data ⟨2, "expected node id"⟩
      [(1, "0:leaf=1".data)] [] 0 (by decide) (by decide),
   malformed_dumps_rejected.2.1 badBlockDangling .DanglingReference
      [exRaws] [] (by decide) (by decide),
   malformed_dumps_rejected.2.2.1 "x\n" (F64.ofInt 0)
      ⟨1, "expected node id"⟩ (by decide),
   malformed_dumps_rejected.2.2.2.1 dump_dangling (F64.ofInt 0)
      badBlockDangling .DanglingReference (by decide) (by decide)⟩

theorem built_tree_traversal_terminates_witness :
    (∃ r, eval_tree exTree [some (F64.ofInt 4)] = some r) ∧
    ((∀ nd ∈ exTree.nodes, nd.is_leaf = false →
        nd.feature_index < ([some (F64.ofInt 4)] : FeatureVector).length) →
      ∃ v, eval_tree exTree [some (F64.ofInt 4)] = some (Except.ok v)) :=
  built_tree_traversal_terminates exRaws exTree (by decide) [some (F64.ofInt 4)]

end Xme
